import Mathlib

/-!
Shallow embedding of the TaskVault task tracker (Electron + better-sqlite3).
The definitions below are translated from `src/electron/db/queries.ts`,
`src/electron/gamification.ts` and the IPC handlers in `src/electron/main.ts`.
Timestamps (`Date.now()`) are modelled as explicit `now : Nat` parameters in
epoch milliseconds; the SQLite store is modelled as in-memory lists; SQL
`LIKE` is modelled with its SQLite semantics (ASCII-case-insensitive, with
the wildcards `%` and `_`); JavaScript string `toLowerCase` is modelled as
ASCII lowering (the only case SQLite's own `LOWER` folds as well).
-/

namespace TaskVault

/-- Task status enum, from the `tasks.status` column. -/
inductive Status
  | OPEN | WAITING | BLOCKED | DONE | ARCHIVED
deriving DecidableEq, Repr

/-- Task priority enum, from the `tasks.priority` column. -/
inductive Priority
  | LOW | NORMAL | HIGH
deriving DecidableEq, Repr

/-- Timeline entry type enum, from the `timeline_entries.type` column. -/
inductive EntryType
  | NOTE | IMAGE | FILE | STATUS | GAMIFY
deriving DecidableEq, Repr

/-- A row of the `tasks` table. -/
structure Task where
  id : String
  title : String
  status : Status
  priority : Priority
  created_at : Nat
  last_touched_at : Nat
  archived_at : Option Nat
  delete_after_at : Option Nat
  pinned_summary : String
deriving DecidableEq, Repr

/-- A row of the `timeline_entries` table. -/
structure TimelineEntry where
  id : String
  task_id : String
  type : EntryType
  content : String
  created_at : Nat
deriving DecidableEq, Repr

/-- The singleton `gamification` row (key `user_stats`). -/
structure Gamification where
  xp : Nat
  level : Nat
  streak : Nat
  last_active_date : Nat
deriving DecidableEq, Repr

/-- The SQLite database state: the three tables. `gamification = none` models
the absence of the `user_stats` row. -/
structure DB where
  tasks : List Task
  entries : List TimelineEntry
  gamification : Option Gamification
deriving DecidableEq, Repr

/-- ASCII lower-casing of a single character, exactly the folding SQLite's
`LIKE` and `LOWER` apply (only `A`-`Z` are folded). -/
def asciiLower (c : Char) : Char :=
  match c with
  | 'A' => 'a' | 'B' => 'b' | 'C' => 'c' | 'D' => 'd' | 'E' => 'e'
  | 'F' => 'f' | 'G' => 'g' | 'H' => 'h' | 'I' => 'i' | 'J' => 'j'
  | 'K' => 'k' | 'L' => 'l' | 'M' => 'm' | 'N' => 'n' | 'O' => 'o'
  | 'P' => 'p' | 'Q' => 'q' | 'R' => 'r' | 'S' => 's' | 'T' => 't'
  | 'U' => 'u' | 'V' => 'v' | 'W' => 'w' | 'X' => 'x' | 'Y' => 'y'
  | 'Z' => 'z'
  | other => other

/-- ASCII lower-casing of a character list. -/
def lowerL (l : List Char) : List Char := l.map asciiLower

/-- ASCII lower-casing of a string; models `query.toLowerCase()` (exact for
ASCII input) and SQLite's `LOWER()`. -/
def lowerStr (s : String) : String := String.mk (lowerL s.data)

/-- SQLite `LIKE` pattern matching: `%` matches any sequence, `_` any single
character, and plain characters compare ASCII-case-insensitively. -/
def likeMatch (p : List Char) : List Char → Bool :=
  match p with
  | [] => fun s => s.isEmpty
  | c :: ps =>
    if c = '%' then fun s => s.tails.any (fun t => likeMatch ps t)
    else if c = '_' then fun s =>
      match s with
      | [] => false
      | _ :: s2 => likeMatch ps s2
    else fun s =>
      match s with
      | [] => false
      | d :: s2 => (asciiLower c == asciiLower d) && likeMatch ps s2

/-- Embeds the SQL condition `col LIKE '%q%'` built by `searchTasks`
(drizzle `like(tasks.title, searchPattern)` and the raw `LIKE` subqueries). -/
def likeContains (q s : String) : Bool :=
  likeMatch ('%' :: (q.data ++ ['%'])) s.data

/-- Pattern `q` matches at the start of `t`, comparing characters literally. -/
def prefixHere : List Char → List Char → Bool
  | [], _ => true
  | _ :: _, [] => false
  | c :: q, d :: s => (c == d) && prefixHere q s

/-- Substring test: `q` occurs contiguously in `s` (literal comparison). -/
def isSubstrOf (q s : List Char) : Bool := s.tails.any (fun t => prefixHere q t)

/-- Stable insertion into a list ordered by the strict comparator `lt`:
the new element goes after existing elements it does not strictly precede. -/
def insertStable (lt : α → α → Bool) (x : α) : List α → List α
  | [] => [x]
  | y :: ys => if lt x y then x :: y :: ys else y :: insertStable lt x ys

/-- Stable sort by the strict comparator `lt`, processing elements left to
right; models JavaScript `Array.prototype.sort` (stable) and determinizes
SQL `ORDER BY` (ties keep storage order). -/
def sortStable (lt : α → α → Bool) (l : List α) : List α :=
  l.foldl (fun acc x => insertStable lt x acc) []

/-- From `queries.ts getGamification`: the `user_stats` row or null. -/
def getGamification (db : DB) : Option Gamification := db.gamification

/-- Partial update payload for `queries.ts updateGamificationStats`. -/
structure StatsPatch where
  xp : Option Nat := none
  level : Option Nat := none
  streak : Option Nat := none
  last_active_date : Option Nat := none

/-- From `queries.ts updateGamificationStats`: UPDATE of the `user_stats` row;
a missing row means the UPDATE affects nothing. -/
def updateGamificationStats (db : DB) (p : StatsPatch) : DB :=
  match db.gamification with
  | none => db
  | some g =>
    { db with gamification := some (
        { xp := p.xp.getD g.xp
          level := p.level.getD g.level
          streak := p.streak.getD g.streak
          last_active_date := p.last_active_date.getD g.last_active_date : Gamification }) }

/-- Gamification event names, from `gamification.ts updateGamification`. -/
inductive GEvent
  | create_task | add_content | complete_task | delete_incomplete_task
deriving DecidableEq, Repr

/-- From `gamification.ts updateGamification`: XP delta per event
(`Math.max(0, xp - 5)` is truncated `Nat` subtraction), streak day-bucket
logic, `level = Math.floor(xp / 100) + 1`, `last_active_date = now`. -/
def updateGamification (db : DB) (now : Nat) (action : GEvent) : DB :=
  match db.gamification with
  | none => db
  | some stats =>
    let today := now / 86400000
    let lastActiveDay := stats.last_active_date / 86400000
    let xp : Nat :=
      match action with
      | .create_task => stats.xp + 5
      | .add_content => stats.xp + 2
      | .complete_task => stats.xp + 20
      | .delete_incomplete_task => stats.xp - 5
    let streak : Nat :=
      if today = lastActiveDay then stats.streak
      else if today = lastActiveDay + 1 then stats.streak + 1
      else 1
    let level := xp / 100 + 1
    updateGamificationStats db
      { xp := some xp, level := some level, streak := some streak
        last_active_date := some now }

/-- From `queries.ts createTask`: unconditional INSERT (no title validation);
`id` stands for the generated uuid. -/
def createTask (db : DB) (now : Nat) (id title : String) (priority : Priority) :
    DB × Task :=
  let newTask : Task :=
    { id := id, title := title, status := .OPEN, priority := priority
      created_at := now, last_touched_at := now
      archived_at := none, delete_after_at := none, pinned_summary := "" }
  ({ db with tasks := db.tasks ++ [newTask] }, newTask)

/-- Payload of `queries.ts updateTask`; `status` and `priority` arrive as raw
strings and are validated inside. -/
structure UpdatePayload where
  id : String
  title : Option String := none
  status : Option String := none
  priority : Option String := none
  pinned_summary : Option String := none
  updateTouched : Option Bool := none

/-- The `updateData` record accumulated by `queries.ts updateTask`: a column
is written exactly when the corresponding field is `some`. -/
structure UpdateData where
  title : Option String := none
  status : Option Status := none
  archived_at : Option Nat := none
  delete_after_at : Option Nat := none
  priority : Option Priority := none
  pinned_summary : Option String := none
  last_touched_at : Option Nat := none

/-- The `validStatuses.includes` check plus the cast, as a parser. -/
def statusOfString (s : String) : Option Status :=
  if s = "OPEN" then some .OPEN
  else if s = "WAITING" then some .WAITING
  else if s = "BLOCKED" then some .BLOCKED
  else if s = "DONE" then some .DONE
  else if s = "ARCHIVED" then some .ARCHIVED
  else none

/-- The `validPriorities.includes` check plus the cast, as a parser. -/
def priorityOfString (s : String) : Option Priority :=
  if s = "LOW" then some .LOW
  else if s = "NORMAL" then some .NORMAL
  else if s = "HIGH" then some .HIGH
  else none

/-- The `if (payload.title !== undefined)` block of `queries.ts updateTask`. -/
def udTitleStep (now : Nat) (p : UpdatePayload) : UpdateData :=
  match p.title with
  | none => {}
  | some s =>
    let u : UpdateData := { title := some s }
    if p.updateTouched = none then { u with last_touched_at := some now } else u

/-- The `if (payload.status !== undefined)` block of `queries.ts updateTask`:
validation throw, the cast, the ARCHIVED side effects, the touch. -/
def udStatusStep (now : Nat) (p : UpdatePayload) (u0 : UpdateData) :
    Except String UpdateData :=
  match p.status with
  | none => .ok u0
  | some s =>
    match statusOfString s with
    | none => .error ("Invalid status: " ++ s)
    | some st =>
      let u := { u0 with status := some st }
      let u :=
        if st = Status.ARCHIVED then
          { u with archived_at := some now
                   delete_after_at := some (now + 30 * 24 * 60 * 60 * 1000) }
        else u
      .ok (if p.updateTouched = none then { u with last_touched_at := some now } else u)

/-- The `if (payload.priority !== undefined)` block of `queries.ts updateTask`. -/
def udPriorityStep (now : Nat) (p : UpdatePayload) (u0 : UpdateData) :
    Except String UpdateData :=
  match p.priority with
  | none => .ok u0
  | some s =>
    match priorityOfString s with
    | none => .error ("Invalid priority: " ++ s)
    | some pr =>
      let u := { u0 with priority := some pr }
      .ok (if p.updateTouched = none then { u with last_touched_at := some now } else u)

/-- The `if (payload.pinned_summary !== undefined)` block of `queries.ts
updateTask`. -/
def udPinStep (now : Nat) (p : UpdatePayload) (u0 : UpdateData) : UpdateData :=
  match p.pinned_summary with
  | none => u0
  | some s =>
    let u := { u0 with pinned_summary := some s }
    if p.updateTouched = none then { u with last_touched_at := some now } else u

/-- The field-by-field construction of `updateData` in `queries.ts
updateTask`: the four field blocks in source order, then the explicit
`updateTouched === true` override. -/
def buildUpdateData (now : Nat) (p : UpdatePayload) : Except String UpdateData :=
  match udStatusStep now p (udTitleStep now p) with
  | .error e => .error e
  | .ok ud2 =>
    match udPriorityStep now p ud2 with
    | .error e => .error e
    | .ok ud3 =>
      let ud4 := udPinStep now p ud3
      .ok (if p.updateTouched = some true then { ud4 with last_touched_at := some now } else ud4)

/-- Applying `updateData` to one task row (the SQL `UPDATE ... SET`). -/
def applyUpdate (u : UpdateData) (t : Task) : Task :=
  { t with
    title := u.title.getD t.title
    status := u.status.getD t.status
    archived_at := match u.archived_at with | some v => some v | none => t.archived_at
    delete_after_at := match u.delete_after_at with | some v => some v | none => t.delete_after_at
    priority := u.priority.getD t.priority
    pinned_summary := u.pinned_summary.getD t.pinned_summary
    last_touched_at := u.last_touched_at.getD t.last_touched_at }

/-- No column of the accumulated `updateData` record was written. -/
def udIsEmpty (u : UpdateData) : Bool :=
  decide (u.title = none) && decide (u.status = none) &&
    decide (u.archived_at = none) && decide (u.delete_after_at = none) &&
    decide (u.priority = none) && decide (u.pinned_summary = none) &&
    decide (u.last_touched_at = none)

/-- From `queries.ts updateTask`: build `updateData`, UPDATE every row with the
given id, then SELECT the first such row back (`undefined`, that is `none`,
when the id does not exist — there is no not-found error in the source).
When `updateData` ends up with no column at all (a payload naming no field
and not passing `updateTouched: true`), drizzle's `.set(updateData)` throws
its no-values-to-set error before touching the database; that error path is
kept. -/
def updateTask (db : DB) (now : Nat) (p : UpdatePayload) :
    Except String (DB × Option Task) :=
  match buildUpdateData now p with
  | .error e => .error e
  | .ok ud =>
    if udIsEmpty ud then .error ("No values to set")
    else
      let tasks2 := db.tasks.map (fun t => if t.id = p.id then applyUpdate ud t else t)
      .ok ({ db with tasks := tasks2 }, tasks2.find? (fun t => t.id = p.id))

/-- The database state after `updateTask` (a thrown error leaves it unchanged). -/
def updateTaskDB (db : DB) (now : Nat) (p : UpdatePayload) : DB :=
  match updateTask db now p with
  | .ok x => x.1
  | .error _ => db

/-- From `queries.ts addTimelineEntry`: INSERT (the `foreign_keys = ON` pragma
rejects an entry for a missing task), then, unless `updateTouched` is
explicitly false, an internal `updateTask` that only touches. -/
def addTimelineEntry (db : DB) (now : Nat) (entryId taskId : String)
    (ty : EntryType) (content : String) (updateTouched : Option Bool) :
    Except String (DB × TimelineEntry) :=
  if db.tasks.any (fun t => decide (t.id = taskId)) then
    let entry : TimelineEntry :=
      { id := entryId, task_id := taskId, type := ty, content := content
        created_at := now }
    let db1 : DB := { db with entries := db.entries ++ [entry] }
    let db2 :=
      if updateTouched ≠ some false then
        updateTaskDB db1 now { id := taskId, updateTouched := some true }
      else db1
    .ok (db2, entry)
  else .error ("FOREIGN KEY constraint failed")

/-- The database state after `addTimelineEntry` (an error leaves it unchanged). -/
def addTimelineEntryDB (db : DB) (now : Nat) (entryId taskId : String)
    (ty : EntryType) (content : String) (updateTouched : Option Bool) : DB :=
  match addTimelineEntry db now entryId taskId ty content updateTouched with
  | .ok x => x.1
  | .error _ => db

/-- From `queries.ts getTaskById`: the task plus its timeline ordered by
`created_at` ascending, or null. -/
def getTaskById (db : DB) (id : String) : Option (Task × List TimelineEntry) :=
  match db.tasks.find? (fun t => t.id = id) with
  | none => none
  | some t =>
    some (t, sortStable (fun a b => decide (a.created_at < b.created_at))
      (db.entries.filter (fun e => decide (e.task_id = id))))

/-- The `TaskWithMeta` record returned by `getTasks` and `searchTasks`. -/
structure TaskWithMeta where
  id : String
  title : String
  status : Status
  priority : Priority
  created_at : Nat
  last_touched_at : Nat
  archived_at : Option Nat
  delete_after_at : Option Nat
  pinned_summary : String
  idleAge : Int
  daysOld : Int
  attachmentCount : Nat
  imageCount : Nat
  fileCount : Nat
  lastEntryAt : Option Nat
  latestEntryContent : Option String
  latestEntryType : Option EntryType
  latestEntryDate : Option Nat
deriving DecidableEq, Repr

/-- JavaScript `x || null` on a nullable number (0 is falsy). -/
def jsOrNullNat (o : Option Nat) : Option Nat :=
  match o with
  | some 0 => none
  | x => x

/-- JavaScript `x || null` on a nullable string (the empty string is falsy). -/
def jsOrNullStr (o : Option String) : Option String :=
  match o with
  | some s => if s = "" then none else some s
  | none => none

/-- The correlated `ORDER BY created_at DESC LIMIT 1` subquery: an entry with
maximal `created_at` (ties determinized to the first stored row). -/
def latestEntry (es : List TimelineEntry) : Option TimelineEntry :=
  es.foldl
    (fun acc e =>
      match acc with
      | none => some e
      | some m => if m.created_at < e.created_at then some e else acc)
    none

/-- SQL `MAX(created_at)` over the joined entries. -/
def maxCreatedAt (es : List TimelineEntry) : Option Nat :=
  es.foldl
    (fun acc e =>
      match acc with
      | none => some e.created_at
      | some m => some (max m e.created_at))
    none

/-- The per-task derived-field computation shared by `getTasks` and
`searchTasks` (the two sites in `queries.ts` are textually identical). -/
def toMeta (entries : List TimelineEntry) (now : Nat) (t : Task) : TaskWithMeta :=
  let es := entries.filter (fun e => decide (e.task_id = t.id))
  let le := latestEntry es
  { id := t.id, title := t.title, status := t.status, priority := t.priority
    created_at := t.created_at, last_touched_at := t.last_touched_at
    archived_at := t.archived_at, delete_after_at := t.delete_after_at
    pinned_summary := t.pinned_summary
    idleAge := ((now : Int) - (t.last_touched_at : Int)).fdiv 86400000
    daysOld := ((now : Int) - (t.created_at : Int)).fdiv 86400000
    attachmentCount :=
      (es.filter (fun e => decide (e.type = EntryType.IMAGE) ||
        decide (e.type = EntryType.FILE))).length
    imageCount := (es.filter (fun e => decide (e.type = EntryType.IMAGE))).length
    fileCount := (es.filter (fun e => decide (e.type = EntryType.FILE))).length
    lastEntryAt := jsOrNullNat (maxCreatedAt es)
    latestEntryContent := jsOrNullStr (le.map (fun e => e.content))
    latestEntryType := le.map (fun e => e.type)
    latestEntryDate := jsOrNullNat (le.map (fun e => e.created_at)) }

/-- The `priorityOrder` ranking from `queries.ts`. -/
def priorityOrder (p : Priority) : Nat :=
  match p with
  | .HIGH => 3
  | .NORMAL => 2
  | .LOW => 1

/-- The sort comparator of `getTasks`/`searchTasks`: priority rank
descending, then `idleAge` descending (`a` strictly precedes `b`). -/
def taskBefore (a b : TaskWithMeta) : Bool :=
  if priorityOrder b.priority < priorityOrder a.priority then true
  else if priorityOrder a.priority < priorityOrder b.priority then false
  else decide (b.idleAge < a.idleAge)

/-- The map-then-sort pipeline shared by `getTasks` and `searchTasks`. -/
def listPipeline (taskList : List Task) (entries : List TimelineEntry)
    (now : Nat) : List TaskWithMeta :=
  sortStable taskBefore (taskList.map (toMeta entries now))

/-- From `queries.ts getTasks` (IPC `getTasks`, the spec's `listTasks`). -/
def getTasks (db : DB) (now : Nat) : List TaskWithMeta :=
  listPipeline db.tasks db.entries now

/-- From `queries.ts searchTasks`: the three match queries (title `LIKE`
`%query%`; NOTE entries and IMAGE/FILE entries by
`LOWER(content) LIKE '%' + query.toLowerCase() + '%'`), the id set union,
then the same derived-field pipeline as `getTasks`. `lowerStr` models the
JS `query.toLowerCase()` exactly for ASCII queries only: JS lowers full
Unicode while SQLite's `LOWER`/`LIKE` fold only ASCII, so theorems about
this embedding are stated for ASCII queries. -/
def searchTasks (db : DB) (now : Nat) (query : String) : List TaskWithMeta :=
  let queryLower := lowerStr query
  let titleIds :=
    (db.tasks.filter (fun t => likeContains query t.title)).map (fun t => t.id)
  let noteIds :=
    (db.tasks.filter (fun t => db.entries.any (fun e =>
      decide (e.task_id = t.id) && decide (e.type = EntryType.NOTE) &&
        likeContains queryLower (lowerStr e.content)))).map (fun t => t.id)
  let attachIds :=
    (db.tasks.filter (fun t => db.entries.any (fun e =>
      decide (e.task_id = t.id) &&
        (decide (e.type = EntryType.IMAGE) || decide (e.type = EntryType.FILE)) &&
        likeContains queryLower (lowerStr e.content)))).map (fun t => t.id)
  let matchingTaskIds := titleIds ++ noteIds ++ attachIds
  if matchingTaskIds.isEmpty then []
  else
    listPipeline (db.tasks.filter (fun t => decide (t.id ∈ matchingTaskIds)))
      db.entries now

/-- The WHERE clause of the retention sweep: `status == 'ARCHIVED' AND
delete_after_at IS NOT NULL AND delete_after_at <= now`. -/
def isExpired (now : Nat) (t : Task) : Bool :=
  decide (t.status = Status.ARCHIVED) &&
    (match t.delete_after_at with
     | some d => decide (d ≤ now)
     | none => false)

/-- One iteration of the cleanup loop: delete the task's timeline entries,
then the task row (attachment-directory removal is external, best-effort). -/
def deleteTaskRow (d : DB) (t : Task) : DB :=
  { d with
    entries := d.entries.filter (fun e => decide (e.task_id ≠ t.id))
    tasks := d.tasks.filter (fun x => decide (x.id ≠ t.id)) }

/-- From `queries.ts cleanupExpiredTasks`: select the expired archived tasks,
then delete each with its entries. -/
def cleanupExpiredTasks (db : DB) (now : Nat) : DB :=
  (db.tasks.filter (isExpired now)).foldl deleteTaskRow db

/-- From `queries.ts deleteTimelineEntry`: look the entry up (false when absent),
request deletion of a stored attachment externally (best-effort, not part of
the database state), then DELETE the row. -/
def deleteTimelineEntry (db : DB) (entryId : String) : DB × Bool :=
  match db.entries.find? (fun e => e.id = entryId) with
  | none => (db, false)
  | some _ =>
    ({ db with entries := db.entries.filter (fun e => decide (e.id ≠ entryId)) }, true)

/-- Result record of `queries.ts deleteTask`. -/
structure DeleteResult where
  success : Bool
  wasIncomplete : Option Bool := none
deriving DecidableEq, Repr

/-- From `queries.ts deleteTask`: verify existence, record `wasIncomplete`
(status not DONE), delete entries then the task row. -/
def deleteTask (db : DB) (taskId : String) : DB × DeleteResult :=
  match db.tasks.find? (fun t => t.id = taskId) with
  | none => (db, { success := false })
  | some t =>
    ({ db with
        entries := db.entries.filter (fun e => decide (e.task_id ≠ taskId))
        tasks := db.tasks.filter (fun x => decide (x.id ≠ taskId)) },
      { success := true, wasIncomplete := some (decide (t.status ≠ Status.DONE)) })

/-- The bonus-granting tail of `gamification.ts checkNecromancerBonus`:
+50 XP and a recomputed level written directly through
`updateGamificationStats` (not through `updateGamification`), then a
non-touching GAMIFY timeline entry. -/
def grantNecromancerBonus (db : DB) (now : Nat) (entryId taskId : String)
    (idleAge : Int) : DB × Nat :=
  match db.gamification with
  | none => (db, 0)
  | some stats =>
    let newXp := stats.xp + 50
    let newLevel := newXp / 100 + 1
    let db1 := updateGamificationStats db { xp := some newXp, level := some newLevel }
    let db2 := addTimelineEntryDB db1 now entryId taskId EntryType.GAMIFY
      ("Necromancer Bonus: +50 XP (Task was idle for " ++ toString idleAge ++ " days)")
      (some false)
    (db2, 50)

/-- From `gamification.ts checkNecromancerBonus`: idle-age gate (> 10 days), the
anti-double-award guard on the most recent GAMIFY entry, then the grant.
`entryId` stands for the uuid of the appended GAMIFY entry. -/
def checkNecromancerBonus (db : DB) (now : Nat) (entryId taskId : String) :
    DB × Nat :=
  match getTaskById db taskId with
  | none => (db, 0)
  | some (task, timeline) =>
    let idleAge : Int := ((now : Int) - (task.last_touched_at : Int)).fdiv 86400000
    if 10 < idleAge then
      match (sortStable (fun a b => decide (b.created_at < a.created_at))
          (timeline.filter (fun e => decide (e.type = EntryType.GAMIFY)))).head? with
      | some lastGamifyEntry =>
        let lastGamifyAge : Int :=
          ((now : Int) - (lastGamifyEntry.created_at : Int)).fdiv 86400000
        if lastGamifyAge < idleAge then (db, 0)
        else grantNecromancerBonus db now entryId taskId idleAge
      | none => grantNecromancerBonus db now entryId taskId idleAge
    else (db, 0)

/-- IPC handler `createTask` in `main.ts`: repository insert, then the
`create_task` gamification event. -/
def handleCreateTask (db : DB) (now : Nat) (id title : String)
    (priority : Priority) : DB × Task :=
  let r := createTask db now id title priority
  (updateGamification r.1 now GEvent.create_task, r.2)

/-- IPC handler `updateTask` in `main.ts`: repository update; the
`complete_task` event fires whenever the payload carries `status: 'DONE'`
(the prior status is not consulted); a necromancer check runs when the
payload sets `pinned_summary` with a truthy `updateTouched`. -/
def handleUpdateTask (db : DB) (now : Nat) (gamifyEntryId : String)
    (p : UpdatePayload) : Except String (DB × Option Task) :=
  match updateTask db now p with
  | .error e => .error e
  | .ok (db1, task) =>
    let db2 :=
      if p.status = some ("DONE") then updateGamification db1 now GEvent.complete_task
      else db1
    let db3 :=
      if p.pinned_summary ≠ none ∧ p.updateTouched = some true then
        (checkNecromancerBonus db2 now gamifyEntryId p.id).1
      else db2
    .ok (db3, task)

/-- The database state after the `updateTask` IPC handler. -/
def handleUpdateTaskDB (db : DB) (now : Nat) (gamifyEntryId : String)
    (p : UpdatePayload) : DB :=
  match handleUpdateTask db now gamifyEntryId p with
  | .ok x => x.1
  | .error _ => db

/-- IPC handler `deleteTask` in `main.ts`: repository delete, then the
`delete_incomplete_task` event when the deleted task was not DONE. -/
def handleDeleteTask (db : DB) (now : Nat) (taskId : String) : DB × Bool :=
  let r := deleteTask db taskId
  if r.2.success && (r.2.wasIncomplete.getD false) then
    (updateGamification r.1 now GEvent.delete_incomplete_task, r.2.success)
  else (r.1, r.2.success)

/-- The characterization of the `searchTasks` match set proved below: the
ASCII-case-insensitive substring reading of the three union branches, the
attachment branch matching the full stored relative path. -/
def matchesSearch (entries : List TimelineEntry) (q : String) (t : Task) : Bool :=
  isSubstrOf (lowerL q.data) (lowerL t.title.data) ||
  entries.any (fun e =>
    decide (e.task_id = t.id) && decide (e.type = EntryType.NOTE) &&
      isSubstrOf (lowerL q.data) (lowerL e.content.data)) ||
  entries.any (fun e =>
    decide (e.task_id = t.id) &&
      (decide (e.type = EntryType.IMAGE) || decide (e.type = EntryType.FILE)) &&
      isSubstrOf (lowerL q.data) (lowerL e.content.data))

/-- Final path segment of a stored relative path. Modelled from the spec:
used only by `specSearchMatch` below; the source never takes a basename. -/
def basename (s : String) : List Char := (s.data.splitOn '/').getLastD []

/-- Modelled from the spec: the match set as the specification words it —
title matched case-SENSITIVELY, NOTE content case-insensitively, and only
the basename of an IMAGE/FILE entry's path case-insensitively. Stated for
comparison against the behaviour of `searchTasks`. -/
def specSearchMatch (entries : List TimelineEntry) (q : String) (t : Task) : Bool :=
  isSubstrOf q.data t.title.data ||
  entries.any (fun e =>
    decide (e.task_id = t.id) && decide (e.type = EntryType.NOTE) &&
      isSubstrOf (lowerL q.data) (lowerL e.content.data)) ||
  entries.any (fun e =>
    decide (e.task_id = t.id) &&
      (decide (e.type = EntryType.IMAGE) || decide (e.type = EntryType.FILE)) &&
      isSubstrOf (lowerL q.data) (lowerL (basename e.content)))

/-- The task returned by `updateTask` (`undefined` collapsed to `none`);
evaluation helper for concrete runs. -/
def utResult (db : DB) (now : Nat) (p : UpdatePayload) : Option Task :=
  match updateTask db now p with
  | .ok x => x.2
  | .error _ => none

/-- First task of the store, with an inert default; evaluation helper. -/
def headTask (db : DB) : Task :=
  db.tasks.headD
    { id := "", title := "", status := .OPEN, priority := .NORMAL
      created_at := 0, last_touched_at := 0, archived_at := none
      delete_after_at := none, pinned_summary := "" }

/-- The per-task part of the spec's §3 field invariant, in the direction the
code actually maintains. -/
def taskConsistent (t : Task) : Prop :=
  (t.delete_after_at = none ↔ t.archived_at = none) ∧
  (t.status = Status.ARCHIVED → t.archived_at ≠ none ∧ t.delete_after_at ≠ none)

/-- All stored tasks satisfy `taskConsistent`. -/
def dbConsistent (db : DB) : Prop := ∀ t ∈ db.tasks, taskConsistent t

/-- One repository operation, as named by the spec's command surface:
task creation, task update (errors leave the store unchanged), timeline
append, the two delete operations, and the retention sweep. -/
inductive Step : DB → DB → Prop
  | create (db : DB) (now : Nat) (id title : String) (prio : Priority) :
      Step db (createTask db now id title prio).1
  | update (db : DB) (now : Nat) (p : UpdatePayload) :
      Step db (updateTaskDB db now p)
  | append (db : DB) (now : Nat) (eid tid : String) (ty : EntryType)
      (content : String) (ut : Option Bool) :
      Step db (addTimelineEntryDB db now eid tid ty content ut)
  | delTask (db : DB) (tid : String) : Step db (deleteTask db tid).1
  | delEntry (db : DB) (eid : String) : Step db (deleteTimelineEntry db eid).1
  | sweep (db : DB) (now : Nat) : Step db (cleanupExpiredTasks db now)

/-- Database states reachable from the freshly initialized store
(`initDatabase` in `db/client.ts` creates empty tables and the zeroed
`user_stats` row) by repository operations. -/
inductive ReachableDB : DB → Prop
  | init : ReachableDB
      { tasks := [], entries := []
        gamification := some { xp := 0, level := 1, streak := 0, last_active_date := 0 } }
  | step {db db' : DB} : ReachableDB db → Step db db' → ReachableDB db'

/-- Parsing: `statusOfString` yields ARCHIVED exactly on the string "ARCHIVED". -/
theorem statusOfString_archived {s : String} :
    statusOfString s = some Status.ARCHIVED ↔ s = "ARCHIVED" := by
  unfold statusOfString
  split_ifs with h1 h2 h3 h4 h5 <;> simp_all

/-- Field behaviour of the title block. -/
theorem udTitleStep_spec (now : Nat) (p : UpdatePayload) :
    (udTitleStep now p).title = p.title ∧
    (udTitleStep now p).status = none ∧
    (udTitleStep now p).archived_at = none ∧
    (udTitleStep now p).delete_after_at = none ∧
    (udTitleStep now p).priority = none ∧
    (udTitleStep now p).pinned_summary = none ∧
    (p.updateTouched = some false → (udTitleStep now p).last_touched_at = none) := by
  unfold udTitleStep
  cases hT : p.title <;> simp [hT] <;> split_ifs <;> simp_all

/-- Field behaviour of the status block on success. -/
theorem udStatusStep_spec {now : Nat} {p : UpdatePayload} {u0 ud : UpdateData}
    (h : udStatusStep now p u0 = .ok ud) :
    ud.title = u0.title ∧
    ud.pinned_summary = u0.pinned_summary ∧
    ud.priority = u0.priority ∧
    (p.status = none → ud = u0) ∧
    (∀ s, p.status = some s → ud.status = statusOfString s) ∧
    (p.status = some ("ARCHIVED") →
      ud.archived_at = some now ∧
      ud.delete_after_at = some (now + 30 * 24 * 60 * 60 * 1000)) ∧
    (¬ p.status = some ("ARCHIVED") →
      ud.archived_at = u0.archived_at ∧ ud.delete_after_at = u0.delete_after_at) ∧
    (p.updateTouched = some false → ud.last_touched_at = u0.last_touched_at) := by
  unfold udStatusStep at h
  split at h
  · rename_i hS
    simp at h
    subst h
    simp [hS]
  · rename_i s hS
    split at h
    · simp at h
    · rename_i st hss
      have hbridge : s = "ARCHIVED" ↔ st = Status.ARCHIVED := by
        constructor
        · intro hA
          subst hA
          have hc : statusOfString ("ARCHIVED") = some Status.ARCHIVED := by decide
          exact Option.some.inj (hss.symm.trans hc)
        · intro hst
          subst hst
          exact statusOfString_archived.mp hss
      simp at h
      split_ifs at h <;> subst h <;> simp_all [hbridge]

/-- Field behaviour of the priority block on success. -/
theorem udPriorityStep_spec {now : Nat} {p : UpdatePayload} {u0 ud : UpdateData}
    (h : udPriorityStep now p u0 = .ok ud) :
    ud.title = u0.title ∧
    ud.pinned_summary = u0.pinned_summary ∧
    ud.status = u0.status ∧
    ud.archived_at = u0.archived_at ∧
    ud.delete_after_at = u0.delete_after_at ∧
    (p.priority = none → ud = u0) ∧
    (∀ s, p.priority = some s → ud.priority = priorityOfString s) ∧
    (p.updateTouched = some false → ud.last_touched_at = u0.last_touched_at) := by
  unfold udPriorityStep at h
  split at h
  · rename_i hP
    simp at h
    subst h
    simp [hP]
  · rename_i s hP
    split at h
    · simp at h
    · rename_i pr hps
      simp at h
      split_ifs at h <;> subst h <;> simp_all

/-- Field behaviour of the pinned-summary block. -/
theorem udPinStep_spec (now : Nat) (p : UpdatePayload) (u0 : UpdateData) :
    (udPinStep now p u0).title = u0.title ∧
    (udPinStep now p u0).status = u0.status ∧
    (udPinStep now p u0).archived_at = u0.archived_at ∧
    (udPinStep now p u0).delete_after_at = u0.delete_after_at ∧
    (udPinStep now p u0).priority = u0.priority ∧
    (p.pinned_summary = none → udPinStep now p u0 = u0) ∧
    (∀ s, p.pinned_summary = some s → (udPinStep now p u0).pinned_summary = some s) ∧
    (p.updateTouched = some false →
      (udPinStep now p u0).last_touched_at = u0.last_touched_at) := by
  unfold udPinStep
  cases hPin : p.pinned_summary <;> simp [hPin] <;> split_ifs <;> simp_all

/-- Full characterization of a successfully built `updateData` record. -/
theorem buildUpdateData_fields {now : Nat} {p : UpdatePayload} {ud : UpdateData}
    (h : buildUpdateData now p = .ok ud) :
    ud.title = p.title ∧
    ud.pinned_summary = p.pinned_summary ∧
    ud.status = p.status.bind statusOfString ∧
    ud.priority = p.priority.bind priorityOfString ∧
    ud.archived_at = (if p.status = some ("ARCHIVED") then some now else none) ∧
    ud.delete_after_at =
      (if p.status = some ("ARCHIVED") then some (now + 30 * 24 * 60 * 60 * 1000) else none) ∧
    (p.updateTouched = some false → ud.last_touched_at = none) ∧
    (p.updateTouched = some true → ud.last_touched_at = some now) := by
  unfold buildUpdateData at h
  rcases h2e : udStatusStep now p (udTitleStep now p) with e | ud2
  · rw [h2e] at h; simp at h
  rw [h2e] at h
  simp only [] at h
  rcases h3e : udPriorityStep now p ud2 with e | ud3
  · rw [h3e] at h; simp at h
  rw [h3e] at h
  simp at h
  obtain ⟨t1, t2, t3, t4, t5, t6, t7⟩ := udTitleStep_spec now p
  obtain ⟨s1, s2, s3, s4, s5, s6, s7, s8⟩ := udStatusStep_spec h2e
  obtain ⟨q1, q2, q3, q4, q5, q6, q7, q8⟩ := udPriorityStep_spec h3e
  obtain ⟨n1, n2, n3, n4, n5, n6, n7, n8⟩ := udPinStep_spec now p ud3
  have hstat : ud3.status = p.status.bind statusOfString := by
    cases hS : p.status with
    | none => simp [q3, s4 hS, hS, t2]
    | some s => simp [q3, s5 s hS, hS]
  have harch : ud3.archived_at = (if p.status = some ("ARCHIVED") then some now else none) ∧
      ud3.delete_after_at =
        (if p.status = some ("ARCHIVED") then some (now + 30 * 24 * 60 * 60 * 1000) else none) := by
    by_cases hA : p.status = some ("ARCHIVED")
    · obtain ⟨a1, a2⟩ := s6 hA
      simp [q4, q5, a1, a2, hA]
    · obtain ⟨a1, a2⟩ := s7 hA
      simp [q4, q5, a1, a2, t3, t4, hA]
  have hprio : ud3.priority = p.priority.bind priorityOfString := by
    cases hP : p.priority with
    | none => simp [q6 hP, s3, t5, hP]
    | some s => simp [q7 s hP, hP]
  have hpin : (udPinStep now p ud3).pinned_summary = p.pinned_summary := by
    cases hPin : p.pinned_summary with
    | none => simp [n6 hPin, q2, s2, t6, hPin]
    | some s => simp [n7 s hPin]
  by_cases hU : p.updateTouched = some true
  · rw [if_pos hU] at h
    subst h
    refine ⟨?_, ?_, ?_, ?_, ?_, ?_, ?_, ?_⟩ <;>
      simp [n1, n2, n3, n4, n5, q1, s1, t1, hstat, harch.1, harch.2, hprio, hpin, hU]
  · rw [if_neg hU] at h
    subst h
    refine ⟨?_, ?_, ?_, ?_, ?_, ?_, ?_, ?_⟩
    · simp [n1, q1, s1, t1]
    · exact hpin
    · simp [n2, hstat]
    · simp [n5, hprio]
    · simp [n3, harch.1]
    · simp [n4, harch.2]
    · intro hf
      rw [n8 hf, q8 hf, s8 hf]
      exact t7 hf
    · intro ht
      exact absurd ht hU

/-- The status field of a payload is absent or a valid enum string. -/
def statusFieldValid (p : UpdatePayload) : Bool :=
  match p.status with
  | none => true
  | some s => (statusOfString s).isSome

/-- The priority field of a payload is absent or a valid enum string. -/
def priorityFieldValid (p : UpdatePayload) : Bool :=
  match p.priority with
  | none => true
  | some s => (priorityOfString s).isSome

/-- The status block succeeds on a valid-or-absent status field. -/
theorem udStatusStep_isOk {p : UpdatePayload} (hs : statusFieldValid p = true)
    (now : Nat) (u0 : UpdateData) : ∃ ud, udStatusStep now p u0 = .ok ud := by
  rcases hE : udStatusStep now p u0 with e | ud
  · exfalso
    unfold udStatusStep at hE
    split at hE
    · simp at hE
    · rename_i s hS
      split at hE
      · rename_i hss
        unfold statusFieldValid at hs
        simp [hS, hss] at hs
      · simp at hE
  · exact ⟨ud, rfl⟩

/-- The priority block succeeds on a valid-or-absent priority field. -/
theorem udPriorityStep_isOk {p : UpdatePayload} (hp : priorityFieldValid p = true)
    (now : Nat) (u0 : UpdateData) : ∃ ud, udPriorityStep now p u0 = .ok ud := by
  rcases hE : udPriorityStep now p u0 with e | ud
  · exfalso
    unfold udPriorityStep at hE
    split at hE
    · simp at hE
    · rename_i s hP
      split at hE
      · rename_i hps
        unfold priorityFieldValid at hp
        simp [hP, hps] at hp
      · simp at hE
  · exact ⟨ud, rfl⟩

/-- Success: `buildUpdateData` succeeds exactly when both enum fields are valid. -/
theorem buildUpdateData_isOk {p : UpdatePayload} (hs : statusFieldValid p = true)
    (hp : priorityFieldValid p = true) (now : Nat) :
    ∃ ud, buildUpdateData now p = .ok ud := by
  unfold buildUpdateData
  obtain ⟨ud2, h2⟩ := udStatusStep_isOk hs now (udTitleStep now p)
  rw [h2]
  obtain ⟨ud3, h3⟩ := udPriorityStep_isOk hp now ud2
  simp only []
  rw [h3]
  exact ⟨_, rfl⟩

/-- Inversion of a successful `updateTask`. -/
theorem updateTask_ok {db : DB} {now : Nat} {p : UpdatePayload} {db' : DB}
    {r : Option Task} (h : updateTask db now p = .ok (db', r)) :
    ∃ ud, buildUpdateData now p = .ok ud ∧
      db'.tasks = db.tasks.map (fun t => if t.id = p.id then applyUpdate ud t else t) ∧
      db'.entries = db.entries ∧
      db'.gamification = db.gamification ∧
      r = db'.tasks.find? (fun t => t.id = p.id) := by
  unfold updateTask at h
  split at h
  · simp at h
  · rename_i ud hud
    split at h
    · simp at h
    · injection h with h1
      injection h1 with h2 h3
      subst h2
      subst h3
      exact ⟨ud, hud, rfl, rfl, rfl, rfl⟩

/-- Frame: `updateTask` never changes entries or the gamification record. -/
theorem updateTaskDB_frame (db : DB) (now : Nat) (p : UpdatePayload) :
    (updateTaskDB db now p).entries = db.entries ∧
    (updateTaskDB db now p).gamification = db.gamification := by
  unfold updateTaskDB
  split
  · rename_i x hx
    obtain ⟨db', r⟩ := x
    obtain ⟨ud, _, _, he, hg, _⟩ := updateTask_ok hx
    exact ⟨he, hg⟩
  · exact ⟨rfl, rfl⟩

/-- Composing the row-deletion filters of the cleanup loop. -/
theorem filter_del_cons {α : Type} (key : α → String) (t : Task) (ts : List Task)
    (l : List α) :
    List.filter (fun x => !(ts.any (fun u => decide (u.id = key x))))
      (List.filter (fun x => decide (key x ≠ t.id)) l) =
    List.filter (fun x => !((t :: ts).any (fun u => decide (u.id = key x)))) l := by
  rw [List.filter_filter]
  refine List.filter_congr ?_
  intro x _
  by_cases hxy : key x = t.id
  · simp [hxy]
  · have hyx : ¬ t.id = key x := fun hh => hxy hh.symm
    simp [hxy, hyx]

/-- The cleanup loop deletes exactly the rows owned by the listed tasks. -/
theorem foldl_deleteTaskRow (ts : List Task) (db : DB) :
    ts.foldl deleteTaskRow db =
      { db with
        tasks := db.tasks.filter (fun x => !(ts.any (fun t => decide (t.id = x.id))))
        entries := db.entries.filter (fun e => !(ts.any (fun t => decide (t.id = e.task_id)))) } := by
  induction ts generalizing db with
  | nil => simp
  | cons t ts ih =>
    simp only [List.foldl_cons]
    rw [ih]
    unfold deleteTaskRow
    simp only []
    rw [filter_del_cons (fun x : Task => x.id), filter_del_cons (fun e : TimelineEntry => e.task_id)]

/-- Closed form of `cleanupExpiredTasks`. -/
theorem cleanupExpiredTasks_char (db : DB) (now : Nat) :
    cleanupExpiredTasks db now =
      { db with
        tasks := db.tasks.filter (fun x =>
          !((db.tasks.filter (isExpired now)).any (fun t => decide (t.id = x.id))))
        entries := db.entries.filter (fun e =>
          !((db.tasks.filter (isExpired now)).any (fun t => decide (t.id = e.task_id)))) } :=
  foldl_deleteTaskRow _ _

/-- Applying a successfully built `updateData` preserves the field
invariant of a task row. -/
theorem applyUpdate_consistent {now : Nat} {p : UpdatePayload} {ud : UpdateData}
    (hud : buildUpdateData now p = .ok ud) {t : Task} (ht : taskConsistent t) :
    taskConsistent (applyUpdate ud t) := by
  obtain ⟨f1, f2, f3, f4, f5, f6, f7, _⟩ := buildUpdateData_fields hud
  by_cases hA : p.status = some ("ARCHIVED")
  · rw [if_pos hA] at f5 f6
    unfold applyUpdate taskConsistent
    simp [f5, f6]
  · rw [if_neg hA] at f5 f6
    unfold applyUpdate taskConsistent
    simp only [f5, f6]
    refine ⟨ht.1, ?_⟩
    intro hst
    cases hS : p.status with
    | none =>
      rw [hS] at f3
      simp at f3
      rw [f3] at hst
      simp at hst
      exact ht.2 hst
    | some s =>
      rw [hS] at f3
      simp at f3
      cases hss : statusOfString s with
      | none =>
        rw [hss] at f3
        rw [f3] at hst
        simp at hst
        exact ht.2 hst
      | some st =>
        rw [hss] at f3
        rw [f3] at hst
        simp at hst
        subst hst
        exact absurd (hS.trans (by simp [statusOfString_archived.mp hss]))
          hA

/-- Preservation: `updateTask` keeps the field invariant on every task. -/
theorem updateTaskDB_consistent {db : DB} (h : dbConsistent db) (now : Nat)
    (p : UpdatePayload) : dbConsistent (updateTaskDB db now p) := by
  unfold updateTaskDB
  split
  · rename_i x hx
    obtain ⟨db', r⟩ := x
    obtain ⟨ud, hud, htasks, _, _, _⟩ := updateTask_ok hx
    intro t' ht'
    simp only [htasks, List.mem_map] at ht'
    obtain ⟨t, ht, rfl⟩ := ht'
    by_cases hid : t.id = p.id
    · simp only [if_pos hid]
      exact applyUpdate_consistent hud (h t ht)
    · simp only [if_neg hid]
      exact h t ht
  · exact h

/-- Fact: `dbConsistent` only depends on the task list. -/
theorem dbConsistent_of_tasks_eq {db db' : DB} (hT : db'.tasks = db.tasks)
    (h : dbConsistent db) : dbConsistent db' := by
  intro t ht
  exact h t (hT ▸ ht)

/-- Every repository operation preserves the field invariant. -/
theorem step_consistent {db db' : DB} (h : dbConsistent db) (hs : Step db db') :
    dbConsistent db' := by
  cases hs with
  | create now id title prio =>
    intro t ht
    unfold createTask at ht
    simp at ht
    rcases ht with ht | ht
    · exact h t ht
    · subst ht
      constructor
      · simp
      · intro hst
        simp at hst
  | update now p => exact updateTaskDB_consistent h now p
  | append now eid tid ty content ut =>
    unfold addTimelineEntryDB
    split
    · rename_i x hx
      obtain ⟨db2, e⟩ := x
      unfold addTimelineEntry at hx
      split at hx
      · simp at hx
        obtain ⟨hdb2, _⟩ := hx
        subst hdb2
        split
        · exact dbConsistent_of_tasks_eq rfl h
        · apply updateTaskDB_consistent
          exact h
      · simp at hx
    · exact h
  | delTask tid =>
    unfold deleteTask
    split
    · exact h
    · intro t ht
      simp only [List.mem_filter] at ht
      exact h t ht.1
  | delEntry eid =>
    unfold deleteTimelineEntry
    split
    · exact h
    · exact dbConsistent_of_tasks_eq rfl h
  | sweep now =>
    rw [cleanupExpiredTasks_char]
    intro t ht
    simp only [List.mem_filter] at ht
    exact h t ht.1

/-- Frame: `updateGamificationStats` only writes the gamification row. -/
theorem updateGamificationStats_frame (db : DB) (p : StatsPatch) :
    (updateGamificationStats db p).tasks = db.tasks ∧
    (updateGamificationStats db p).entries = db.entries := by
  unfold updateGamificationStats
  split <;> exact ⟨rfl, rfl⟩

/-- Frame: `updateGamification` only writes the gamification row. -/
theorem updateGamification_frame (db : DB) (now : Nat) (a : GEvent) :
    (updateGamification db now a).tasks = db.tasks ∧
    (updateGamification db now a).entries = db.entries := by
  unfold updateGamification
  split
  · exact ⟨rfl, rfl⟩
  · exact updateGamificationStats_frame _ _

/-- Closed form of one `updateGamification` event on a present record. -/
theorem updateGamification_spec {db : DB} {g : Gamification}
    (hg : db.gamification = some g) (now : Nat) (a : GEvent) :
    ∃ g', (updateGamification db now a).gamification = some g' ∧
      g'.xp = (match a with
        | .create_task => g.xp + 5
        | .add_content => g.xp + 2
        | .complete_task => g.xp + 20
        | .delete_incomplete_task => g.xp - 5) ∧
      g'.level = g'.xp / 100 + 1 ∧
      g'.last_active_date = now ∧
      g'.streak = (if now / 86400000 = g.last_active_date / 86400000 then g.streak
        else if now / 86400000 = g.last_active_date / 86400000 + 1 then g.streak + 1
        else 1) := by
  simp [updateGamification, updateGamificationStats, hg]

/-- Frame: `addTimelineEntry` never changes the gamification row. -/
theorem addTimelineEntryDB_gamif (db : DB) (now : Nat) (eid tid : String)
    (ty : EntryType) (content : String) (ut : Option Bool) :
    (addTimelineEntryDB db now eid tid ty content ut).gamification =
      db.gamification := by
  unfold addTimelineEntryDB
  split
  · rename_i x hx
    obtain ⟨db2, e⟩ := x
    unfold addTimelineEntry at hx
    split at hx
    · simp at hx
      obtain ⟨h1, _⟩ := hx
      subst h1
      split
      · rfl
      · exact (updateTaskDB_frame _ _ _).2
    · simp at hx
  · rfl

/-- The freshly initialized store (`initDatabase`). -/
def dbInit : DB :=
  { tasks := [], entries := []
    gamification := some { xp := 0, level := 1, streak := 0, last_active_date := 0 } }

/-- Store with one OPEN task `t` (touched at 0) and zeroed gamification. -/
def dbC1 : DB :=
  { tasks := [{ id := "t", title := "Task", status := .OPEN, priority := .NORMAL
                created_at := 0, last_touched_at := 0, archived_at := none
                delete_after_at := none, pinned_summary := "" }]
    entries := []
    gamification := some { xp := 0, level := 1, streak := 0, last_active_date := 0 } }

/-- The payload `{status: 'DONE'}` for task `t`. -/
def payloadDone : UpdatePayload := { id := "t", status := some ("DONE") }

/-- C1: the `complete_task` (+20 XP) event does not fire once per transition
into DONE — the `updateTask` IPC handler fires it on every payload whose
`status` field is `'DONE'`, without consulting the prior status. Starting
from `xp = 0` with task `t` OPEN, the first `updateTask(t, {status:'DONE'})`
yields 20 XP and the second (a no-op transition, the task already DONE)
yields 40 XP, where the spec requires it to stay at 20. -/
theorem C1_done_xp_fires_twice :
    Option.map (fun g => g.xp)
      (handleUpdateTaskDB dbC1 100 "g1" payloadDone).gamification = some 20 ∧
    Option.map (fun g => g.xp)
      (handleUpdateTaskDB (handleUpdateTaskDB dbC1 100 "g1" payloadDone) 200 "g2"
        payloadDone).gamification = some 40 := by
  exact ⟨by decide, by decide⟩

/-- C2 (amended): for every reachable database state, `delete_after_at` is
non-null iff `archived_at` is non-null, and an ARCHIVED task has both
non-null. (The claimed equivalence with `status == ARCHIVED` itself fails
once a task is un-archived; see the counterexample.) -/
theorem C2_field_invariant : ∀ db : DB, ReachableDB db → dbConsistent db := by
  intro db h
  induction h with
  | init =>
    intro t ht
    simp [dbInit] at ht
  | step _ hs ih => exact step_consistent ih hs

/-- Witness for C2: the invariant at a concrete reachable state (a task
created at 0 and archived at 10). -/
theorem C2_field_invariant_witness :
    dbConsistent (updateTaskDB (createTask dbInit 0 "t" "Task" Priority.NORMAL).1 10
      { id := "t", status := some ("ARCHIVED") }) :=
  C2_field_invariant _
    (ReachableDB.step
      (ReachableDB.step ReachableDB.init (Step.create dbInit 0 "t" "Task" Priority.NORMAL))
      (Step.update _ 10 { id := "t", status := some ("ARCHIVED") }))

/-- A task created at 0, archived at 10, and set back to OPEN at 20: the
sweep fields are not cleared on un-archiving. -/
def dbReopened : DB :=
  updateTaskDB
    (updateTaskDB (createTask dbInit 0 "t" "Task" Priority.NORMAL).1 10
      { id := "t", status := some ("ARCHIVED") })
    20 { id := "t", status := some ("OPEN") }

/-- C2 counterexample: a reachable state (create, archive, re-open) whose
task is OPEN yet still carries a non-null `delete_after_at`, so the claimed
invariant `delete_after_at non-null iff status == ARCHIVED and archived_at
non-null` is false on the code. -/
theorem C2_counterexample :
    ReachableDB dbReopened ∧
    (dbReopened.tasks.all (fun t =>
      decide (t.delete_after_at ≠ none ↔
        (t.status = Status.ARCHIVED ∧ t.archived_at ≠ none)))) = false := by
  constructor
  · exact ReachableDB.step
      (ReachableDB.step
        (ReachableDB.step ReachableDB.init (Step.create dbInit 0 "t" "Task" Priority.NORMAL))
        (Step.update _ 10 { id := "t", status := some ("ARCHIVED") }))
      (Step.update _ 20 { id := "t", status := some ("OPEN") })
  · decide

/-- C3 (amended): `createTask` performs no title validation — for every
title, including one empty after trimming, the row is inserted as given and
the facade fires the `create_task` event (+5 XP on a present gamification
record). There is no `ValidationError` in the code. -/
theorem C3_no_title_validation (db : DB) (now : Nat) (id title : String)
    (prio : Priority) :
    (handleCreateTask db now id title prio).1.tasks =
      db.tasks ++ [(handleCreateTask db now id title prio).2] ∧
    (handleCreateTask db now id title prio).2.title = title ∧
    (∀ g, db.gamification = some g →
      Option.map (fun s => s.xp) (handleCreateTask db now id title prio).1.gamification =
        some (g.xp + 5)) := by
  refine ⟨?_, rfl, ?_⟩
  · exact (updateGamification_frame (createTask db now id title prio).1 now
      GEvent.create_task).1
  · intro g hg
    have hg2 : (createTask db now id title prio).1.gamification = some g := hg
    obtain ⟨g', hg', hxp, _, _, _⟩ :=
      updateGamification_spec hg2 now GEvent.create_task
    show Option.map (fun s => s.xp)
      (updateGamification (createTask db now id title prio).1 now GEvent.create_task).gamification = _
    rw [hg']
    simp at hxp
    simp [hxp]

/-- Witness for C3: the empty title at a concrete store. -/
theorem C3_no_title_validation_witness :
    (handleCreateTask dbInit 5 "t1" "" Priority.NORMAL).1.tasks =
      dbInit.tasks ++ [(handleCreateTask dbInit 5 "t1" "" Priority.NORMAL).2] ∧
    (handleCreateTask dbInit 5 "t1" "" Priority.NORMAL).2.title = "" ∧
    Option.map (fun s => s.xp)
      (handleCreateTask dbInit 5 "t1" "" Priority.NORMAL).1.gamification = some 5 := by
  obtain ⟨h1, h2, h3⟩ := C3_no_title_validation dbInit 5 "t1" "" Priority.NORMAL
  exact ⟨h1, h2, h3 { xp := 0, level := 1, streak := 0, last_active_date := 0 } rfl⟩

/-- C3 counterexample: with the empty title (empty after trimming), the
claim requires a `ValidationError` with no row inserted and no XP event; the
code inserts the row and grants +5 XP. -/
theorem C3_counterexample :
    (handleCreateTask dbInit 5 "t1" "" Priority.NORMAL).1.tasks.length = 1 ∧
    Option.map (fun g => g.xp)
      (handleCreateTask dbInit 5 "t1" "" Priority.NORMAL).1.gamification = some 5 := by
  exact ⟨by decide, by decide⟩

/-- C4 (amended): `updateTask` does not fail on a nonexistent id — provided
the payload writes at least one column (any of the four fields, or an
explicit `updateTouched: true`) with valid-or-absent enum values, it returns
successfully with no task (`undefined`) and the store unchanged; there is no
`NotFoundError` in the code. (With an invalid enum value it throws the
invalid-value error, and with a payload writing no column it throws
drizzle's no-values-to-set error — both regardless of whether the id
exists.) -/
theorem C4_missing_id_no_error (db : DB) (now : Nat) (p : UpdatePayload)
    (hid : db.tasks.all (fun t => decide (t.id ≠ p.id)) = true)
    (hs : statusFieldValid p = true) (hp : priorityFieldValid p = true)
    (hset : p.title ≠ none ∨ p.status ≠ none ∨ p.priority ≠ none ∨
      p.pinned_summary ≠ none ∨ p.updateTouched = some true) :
    updateTask db now p = .ok (db, none) := by
  obtain ⟨ud, hud⟩ := buildUpdateData_isOk hs hp now
  obtain ⟨f1, f2, f3, f4, _, _, _, f8⟩ := buildUpdateData_fields hud
  have hnonempty : ¬ (udIsEmpty ud = true) := by
    unfold udIsEmpty
    rcases hset with h | h | h | h | h
    · simp [f1, h]
    · obtain ⟨s, hsome⟩ := Option.ne_none_iff_exists'.mp h
      have hs2 := hs
      unfold statusFieldValid at hs2
      simp only [hsome] at hs2
      obtain ⟨st, hst⟩ := Option.isSome_iff_exists.mp hs2
      simp [f3, hsome, hst]
    · obtain ⟨s, hsome⟩ := Option.ne_none_iff_exists'.mp h
      have hp2 := hp
      unfold priorityFieldValid at hp2
      simp only [hsome] at hp2
      obtain ⟨pr, hpr⟩ := Option.isSome_iff_exists.mp hp2
      simp [f4, hsome, hpr]
    · simp [f2, h]
    · simp [f8 h]
  have hne : ∀ t ∈ db.tasks, ¬ t.id = p.id := by
    intro t ht
    have := (List.all_eq_true.mp hid) t ht
    simpa using this
  have hmap : db.tasks.map (fun t => if t.id = p.id then applyUpdate ud t else t) =
      db.tasks := by
    rw [List.map_congr_left (fun t ht => if_neg (hne t ht))]
    exact List.map_id _
  have hfind : db.tasks.find? (fun t => t.id = p.id) = none := by
    rw [List.find?_eq_none]
    intro t ht
    simpa using hne t ht
  unfold updateTask
  rw [hud]
  simp only []
  rw [if_neg hnonempty, hmap, hfind]

/-- Witness for C4: a concrete missing id with a valid priority field. -/
theorem C4_missing_id_no_error_witness :
    updateTask dbC1 5 { id := "zzz", priority := some ("LOW") } = .ok (dbC1, none) :=
  C4_missing_id_no_error dbC1 5 { id := "zzz", priority := some ("LOW") }
    (by decide) (by decide) (by decide) (by decide)

/-- C4 counterexample: on an empty store, `updateTask` for a missing id
returns success with no task — it does not fail with a `NotFoundError` as
the claim requires. -/
theorem C4_counterexample :
    updateTask { tasks := [], entries := [], gamification := none } 5
      { id := "missing", title := some ("retitle") } =
    .ok ({ tasks := [], entries := [], gamification := none }, none) := rfl

/-- C10: `checkNecromancerBonus` called with a task id that does not exist
returns 0 and leaves the whole store unchanged. -/
theorem C10_missing_task (db : DB) (now : Nat) (entryId taskId : String)
    (h : db.tasks.all (fun t => decide (t.id ≠ taskId)) = true) :
    checkNecromancerBonus db now entryId taskId = (db, 0) := by
  have hf : db.tasks.find? (fun t => t.id = taskId) = none := by
    rw [List.find?_eq_none]
    intro t ht
    have := (List.all_eq_true.mp h) t ht
    simpa using this
  unfold checkNecromancerBonus getTaskById
  rw [hf]

/-- Witness for C10 at a concrete store and missing id. -/
theorem C10_missing_task_witness :
    checkNecromancerBonus dbC1 7 "e1" "zzz" = (dbC1, 0) :=
  C10_missing_task dbC1 7 "e1" "zzz" (by decide)

/-- The gamification row after a necromancer grant: +50 XP, recomputed
level, streak and `last_active_date` untouched. -/
theorem grantNecromancerBonus_gamif {db : DB} {g : Gamification}
    (hg : db.gamification = some g) (now : Nat) (eid tid : String) (idle : Int) :
    ∃ g', (grantNecromancerBonus db now eid tid idle).1.gamification = some g' ∧
      g'.xp = g.xp + 50 ∧ g'.level = g'.xp / 100 + 1 ∧ g'.streak = g.streak ∧
      g'.last_active_date = g.last_active_date := by
  unfold grantNecromancerBonus
  simp only [hg]
  rw [addTimelineEntryDB_gamif]
  unfold updateGamificationStats
  simp only [hg]
  exact ⟨_, rfl, by simp, by simp, by simp, by simp⟩

/-- C6 (amended): after each of the four `updateGamification` events the
stored level equals `floor(xp/100)+1` and `last_active_date` equals the
event's `now`; the necromancer bonus, however, is NOT granted through that
update path — when it fires (+50 XP) it recomputes the level (so the level
equation still holds) but leaves `last_active_date` and streak unchanged. -/
theorem C6_level_and_last_active :
    (∀ (db : DB) (now : Nat) (a : GEvent) (g : Gamification),
      db.gamification = some g →
      Option.map (fun g2 => decide (g2.level = g2.xp / 100 + 1) &&
          decide (g2.last_active_date = now))
        (updateGamification db now a).gamification = some true) ∧
    (∀ (db : DB) (now : Nat) (eid tid : String) (g : Gamification),
      (checkNecromancerBonus db now eid tid).2 = 50 →
      db.gamification = some g →
      Option.map (fun g2 => decide (g2.xp = g.xp + 50) &&
          decide (g2.level = g2.xp / 100 + 1) && decide (g2.streak = g.streak) &&
          decide (g2.last_active_date = g.last_active_date))
        (checkNecromancerBonus db now eid tid).1.gamification = some true) := by
  constructor
  · intro db now a g hg
    obtain ⟨g2, h1, _, h3, h4, _⟩ := updateGamification_spec hg now a
    rw [h1]
    simp [h3, h4]
  · intro db now eid tid g h50 hg
    have hgrant : ∀ idle : Int,
        Option.map (fun g2 => decide (g2.xp = g.xp + 50) &&
            decide (g2.level = g2.xp / 100 + 1) && decide (g2.streak = g.streak) &&
            decide (g2.last_active_date = g.last_active_date))
          (grantNecromancerBonus db now eid tid idle).1.gamification = some true := by
      intro idle
      obtain ⟨g2, h1, h2, h3, h4, h5⟩ := grantNecromancerBonus_gamif hg now eid tid idle
      rw [h1]
      simp [h2, h3, h4, h5]
    unfold checkNecromancerBonus at h50 ⊢
    rcases hT : getTaskById db tid with _ | ⟨task, timeline⟩ <;>
      simp only [hT] at h50 ⊢
    · simp at h50
    · by_cases hI : (10 : Int) < ((now : Int) - (task.last_touched_at : Int)).fdiv 86400000
      · simp only [if_pos hI] at h50 ⊢
        rcases hHead : (sortStable (fun a b => decide (b.created_at < a.created_at))
            (timeline.filter (fun e => decide (e.type = EntryType.GAMIFY)))).head? with _ | lastG <;>
          simp only [hHead] at h50 ⊢
        · exact hgrant _
        · by_cases hLt : ((now : Int) - (lastG.created_at : Int)).fdiv 86400000 <
              ((now : Int) - (task.last_touched_at : Int)).fdiv 86400000
          · simp only [if_pos hLt] at h50
            simp at h50
          · simp only [if_neg hLt] at h50 ⊢
            exact hgrant _
      · simp only [if_neg hI] at h50
        simp at h50

/-- Witness for C6: the `create_task` event at a concrete store, and a
concrete necromancer grant (task idle 20 days). -/
theorem C6_level_and_last_active_witness :
    Option.map (fun g2 => decide (g2.level = g2.xp / 100 + 1) &&
        decide (g2.last_active_date = 7))
      (updateGamification dbInit 7 GEvent.create_task).gamification = some true ∧
    Option.map (fun g2 => decide (g2.xp = 0 + 50) &&
        decide (g2.level = g2.xp / 100 + 1) && decide (g2.streak = 0) &&
        decide (g2.last_active_date = 0))
      (checkNecromancerBonus dbC1 1728000000 "g1" "t").1.gamification = some true :=
  ⟨C6_level_and_last_active.1 dbInit 7 GEvent.create_task
      { xp := 0, level := 1, streak := 0, last_active_date := 0 } rfl,
    C6_level_and_last_active.2 dbC1 1728000000 "g1" "t"
      { xp := 0, level := 1, streak := 0, last_active_date := 0 } (by decide) rfl⟩

/-- C6 counterexample: a necromancer grant (task idle 20 days) leaves
`last_active_date` at its prior value 0 instead of the event's `now`
(1728000000), refuting the claim that the bonus goes through the same update
path and stamps `last_active_date = now`. -/
theorem C6_counterexample :
    (checkNecromancerBonus dbC1 1728000000 "g1" "t").2 = 50 ∧
    Option.map (fun g => g.last_active_date)
      (checkNecromancerBonus dbC1 1728000000 "g1" "t").1.gamification = some 0 ∧
    (0 : Nat) ≠ 1728000000 :=
  ⟨by decide, by decide, by decide⟩

/-- C7: an explicit `updateTouched = false` makes `updateTask` preserve
`last_touched_at` regardless of which of the four updatable fields the
payload sets; ids and `created_at` are always preserved, tasks with a
different id are untouched, each of the four fields not named in the payload
is unchanged, and entries and the gamification record are never written. -/
theorem C7_touch_false_preserves (db : DB) (now : Nat) (p : UpdatePayload)
    (db' : DB) (r : Option Task) (hf : p.updateTouched = some false)
    (h : updateTask db now p = .ok (db', r)) :
    db'.entries = db.entries ∧ db'.gamification = db.gamification ∧
    List.Forall₂ (fun t t' : Task =>
      t'.id = t.id ∧ t'.created_at = t.created_at ∧
      t'.last_touched_at = t.last_touched_at ∧
      (¬ t.id = p.id → t' = t) ∧
      (p.title = none → t'.title = t.title) ∧
      (p.status = none → t'.status = t.status) ∧
      (p.priority = none → t'.priority = t.priority) ∧
      (p.pinned_summary = none → t'.pinned_summary = t.pinned_summary))
      db.tasks db'.tasks := by
  obtain ⟨ud, hud, htasks, he, hg, _⟩ := updateTask_ok h
  refine ⟨he, hg, ?_⟩
  rw [htasks, List.forall₂_map_right_iff, List.forall₂_same]
  intro t ht
  obtain ⟨f1, f2, f3, f4, _, _, f7, _⟩ := buildUpdateData_fields hud
  by_cases hid : t.id = p.id
  · rw [if_pos hid]
    unfold applyUpdate
    refine ⟨rfl, rfl, ?_, ?_, ?_, ?_, ?_, ?_⟩
    · simp [f7 hf]
    · intro hc
      exact absurd hid hc
    · intro hT
      simp [f1, hT]
    · intro hS
      simp [f3, hS]
    · intro hP
      simp [f4, hP]
    · intro hPin
      simp [f2, hPin]
  · rw [if_neg hid]
    exact ⟨rfl, rfl, rfl, fun _ => rfl, fun _ => rfl, fun _ => rfl, fun _ => rfl,
      fun _ => rfl⟩

/-- The touch-false payload of the claim. -/
def pTouchFalse : UpdatePayload :=
  { id := "t", priority := some ("LOW"), updateTouched := some false }

/-- Witness for C7: `updateTask(t, {priority:'LOW', touch:false})` at a
concrete store. -/
theorem C7_touch_false_preserves_witness :
    (updateTaskDB dbC1 99 pTouchFalse).entries = dbC1.entries ∧
    (updateTaskDB dbC1 99 pTouchFalse).gamification = dbC1.gamification ∧
    List.Forall₂ (fun t t' : Task =>
      t'.id = t.id ∧ t'.created_at = t.created_at ∧
      t'.last_touched_at = t.last_touched_at ∧
      (¬ t.id = pTouchFalse.id → t' = t) ∧
      (pTouchFalse.title = none → t'.title = t.title) ∧
      (pTouchFalse.status = none → t'.status = t.status) ∧
      (pTouchFalse.priority = none → t'.priority = t.priority) ∧
      (pTouchFalse.pinned_summary = none → t'.pinned_summary = t.pinned_summary))
      dbC1.tasks (updateTaskDB dbC1 99 pTouchFalse).tasks :=
  C7_touch_false_preserves dbC1 99 pTouchFalse (updateTaskDB dbC1 99 pTouchFalse)
    (utResult dbC1 99 pTouchFalse) rfl (by rfl)

/-- C8: every successful `updateTask` whose payload sets `status` to
ARCHIVED — regardless of the task's prior state, so also on re-archiving —
stamps `archived_at = now` and `delete_after_at = now + 30 days` (in millis,
`now + 30*24*60*60*1000`) on the row with the payload's id. -/
theorem C8_archive_countdown (db : DB) (now : Nat) (p : UpdatePayload)
    (db' : DB) (r : Option Task) (hA : p.status = some ("ARCHIVED"))
    (h : updateTask db now p = .ok (db', r)) :
    ∀ t' ∈ db'.tasks, t'.id = p.id →
      t'.status = Status.ARCHIVED ∧ t'.archived_at = some now ∧
      t'.delete_after_at = some (now + 30 * 24 * 60 * 60 * 1000) := by
  obtain ⟨ud, hud, htasks, _, _, _⟩ := updateTask_ok h
  obtain ⟨_, _, f3, _, f5, f6, _, _⟩ := buildUpdateData_fields hud
  rw [if_pos hA] at f5 f6
  intro t' ht' hid'
  rw [htasks, List.mem_map] at ht'
  obtain ⟨t, ht, rfl⟩ := ht'
  by_cases hid : t.id = p.id
  · rw [if_pos hid]
    unfold applyUpdate
    refine ⟨?_, ?_, ?_⟩
    · simp [f3, hA, statusOfString]
    · simp [f5]
    · simp [f6]
  · rw [if_neg hid] at hid'
    exact absurd hid' hid

/-- The archive payload for task `t`. -/
def pArchive : UpdatePayload := { id := "t", status := some ("ARCHIVED") }

/-- Task `t` archived once at 50. -/
def dbArchived : DB := updateTaskDB dbC1 50 pArchive

/-- Witness for C8: re-archiving the already ARCHIVED task at 100 resets the
countdown to `100 + 30 days`. -/
theorem C8_archive_countdown_witness :
    (headTask (updateTaskDB dbArchived 100 pArchive)).status = Status.ARCHIVED ∧
    (headTask (updateTaskDB dbArchived 100 pArchive)).archived_at = some 100 ∧
    (headTask (updateTaskDB dbArchived 100 pArchive)).delete_after_at =
      some (100 + 30 * 24 * 60 * 60 * 1000) :=
  C8_archive_countdown dbArchived 100 pArchive (updateTaskDB dbArchived 100 pArchive)
    (utResult dbArchived 100 pArchive) rfl (by rfl)
    (headTask (updateTaskDB dbArchived 100 pArchive)) (by decide) (by decide)

/-- The image of `asciiLower` on the folded letters. -/
def lowercaseOut : List Char :=
  ['a','b','c','d','e','f','g','h','i','j','k','l','m',
   'n','o','p','q','r','s','t','u','v','w','x','y','z']

/-- Case split: `asciiLower` either fixes a character or folds it to a lowercase letter. -/
theorem asciiLower_cases (c : Char) :
    asciiLower c = c ∨ asciiLower c ∈ lowercaseOut := by
  unfold asciiLower
  split <;> first | (right; decide) | (left; rfl)

/-- Idempotence of `asciiLower`. -/
theorem asciiLower_idem (c : Char) : asciiLower (asciiLower c) = asciiLower c := by
  have hfix : ∀ d ∈ lowercaseOut, asciiLower d = d := by decide
  rcases asciiLower_cases c with h | h
  · rw [h]
    exact h
  · exact hfix _ h

/-- Lowering never produces a `LIKE` wildcard. -/
theorem asciiLower_wild (c : Char) (h1 : ¬ c = '%') (h2 : ¬ c = '_') :
    ¬ asciiLower c = '%' ∧ ¬ asciiLower c = '_' := by
  have hlist : ∀ d ∈ lowercaseOut, ¬ d = '%' ∧ ¬ d = '_' := by decide
  rcases asciiLower_cases c with h | h
  · rw [h]
    exact ⟨h1, h2⟩
  · exact hlist _ h

/-- Idempotence of `lowerL`. -/
theorem lowerL_idem (l : List Char) : lowerL (lowerL l) = lowerL l := by
  unfold lowerL
  rw [List.map_map]
  exact List.map_congr_left (fun a _ => asciiLower_idem a)

/-- The empty suffix always witnesses `any isEmpty` over `tails`. -/
theorem tails_any_isEmpty (s : List Char) : s.tails.any (fun t => t.isEmpty) = true := by
  induction s with
  | nil => rfl
  | cons a s ih => simp [List.tails_cons, ih]

/-- Commuting `tails` with `map`. -/
theorem tails_map {α β : Type} (f : α → β) (l : List α) :
    (l.map f).tails = l.tails.map (List.map f) := by
  induction l with
  | nil => rfl
  | cons a l ih => simp [List.tails_cons, ih]

/-- A wildcard-free pattern followed by `%` matches a string iff the lowered
pattern is a literal prefix of the lowered string. -/
theorem likeMatch_oneLit (q : List Char)
    (hq : ∀ c ∈ q, ¬ c = '%' ∧ ¬ c = '_') :
    ∀ s : List Char, likeMatch (q ++ ['%']) s = prefixHere (lowerL q) (lowerL s) := by
  induction q with
  | nil =>
    intro s
    have h1 : likeMatch (([] : List Char) ++ ['%']) s =
        s.tails.any (fun t => likeMatch [] t) := by
      simp [likeMatch]
    rw [h1]
    have h2 : ∀ t : List Char, likeMatch [] t = t.isEmpty := fun t => rfl
    simp only [h2]
    rw [tails_any_isEmpty]
    simp [prefixHere, lowerL]
  | cons c q ih =>
    intro s
    have hc := hq c (List.mem_cons_self c q)
    have hq2 : ∀ x ∈ q, ¬ x = '%' ∧ ¬ x = '_' :=
      fun x hx => hq x (List.mem_cons_of_mem c hx)
    cases s with
    | nil => simp [likeMatch, hc.1, hc.2, prefixHere, lowerL]
    | cons d s2 =>
      simp [likeMatch, hc.1, hc.2, prefixHere, lowerL]
      have h3 := ih hq2 s2
      simp [lowerL] at h3
      rw [h3]

/-- The SQL condition `col LIKE '%q%'` for a wildcard-free `q` is exactly
ASCII-case-insensitive substring containment. -/
theorem likeContains_eq_substr (q s : String)
    (hq : ∀ c ∈ q.data, ¬ c = '%' ∧ ¬ c = '_') :
    likeContains q s = isSubstrOf (lowerL q.data) (lowerL s.data) := by
  unfold likeContains isSubstrOf
  have h1 : likeMatch ('%' :: (q.data ++ ['%'])) s.data =
      s.data.tails.any (fun t => likeMatch (q.data ++ ['%']) t) := by
    simp [likeMatch]
  rw [h1]
  simp only [likeMatch_oneLit q.data hq]
  unfold lowerL
  rw [tails_map, List.any_map]
  rfl

/-- Membership in the union of the three per-predicate id lists is the
disjunction of the predicates, given unique task ids. -/
theorem idUnion_filter (tasks : List Task)
    (hN : (tasks.map (fun t : Task => t.id)).Nodup) (P1 P2 P3 : Task → Bool) :
    ∀ t ∈ tasks,
      decide (t.id ∈ ((tasks.filter P1).map (fun t : Task => t.id) ++
        (tasks.filter P2).map (fun t : Task => t.id) ++
        (tasks.filter P3).map (fun t : Task => t.id))) = (P1 t || P2 t || P3 t) := by
  intro t ht
  have hone : ∀ P : Task → Bool,
      (t.id ∈ (tasks.filter P).map (fun t : Task => t.id)) ↔ P t = true := by
    intro P
    constructor
    · intro hmem
      rw [List.mem_map] at hmem
      obtain ⟨u, hu, huid⟩ := hmem
      rw [List.mem_filter] at hu
      have heq : u = t := List.inj_on_of_nodup_map hN hu.1 ht huid
      exact heq ▸ hu.2
    · intro hP
      rw [List.mem_map]
      exact ⟨t, List.mem_filter.mpr ⟨ht, hP⟩, rfl⟩
  have hiff : (t.id ∈ ((tasks.filter P1).map (fun t : Task => t.id) ++
      (tasks.filter P2).map (fun t : Task => t.id) ++
      (tasks.filter P3).map (fun t : Task => t.id))) ↔
      ((P1 t || P2 t || P3 t) = true) := by
    simp only [List.mem_append, hone, Bool.or_eq_true]
  exact (decide_eq_decide.mpr hiff).trans (Bool.decide_coe _)

/-- C5 (amended): for an ASCII query free of the `LIKE` wildcards and unique
task ids, `searchTasks` returns exactly the tasks matched by the union of:
title containing the query ASCII-case-insensitively (SQLite `LIKE` is
case-insensitive on ASCII, not case-sensitive as claimed), a NOTE entry
whose content case-insensitively contains the query, or an IMAGE/FILE entry
whose FULL stored relative path (not just the basename) case-insensitively
contains the query — each carrying the same derived fields and sorted by the
same priority-then-idleAge pipeline as `getTasks`. The ASCII restriction is
needed because JS's `query.toLowerCase()` folds full Unicode while SQLite's
`LOWER`/`LIKE` fold only ASCII, so a non-ASCII query such as "CAFÉ" yields
the pattern "%café%", which fails to match content equal to "CAFÉ". -/
theorem C5_search_union (db : DB) (now : Nat) (q : String)
    (hN : (db.tasks.map (fun t : Task => t.id)).Nodup)
    (hq : ∀ c ∈ q.data, ¬ c = '%' ∧ ¬ c = '_')
    (hascii : ∀ c ∈ q.data, c.toNat < 128) :
    searchTasks db now q =
      listPipeline (db.tasks.filter (matchesSearch db.entries q)) db.entries now := by
  have hTitle : ∀ t : Task, likeContains q t.title =
      isSubstrOf (lowerL q.data) (lowerL t.title.data) :=
    fun t => likeContains_eq_substr q t.title hq
  have hLow : ∀ s : String, likeContains (lowerStr q) (lowerStr s) =
      isSubstrOf (lowerL q.data) (lowerL s.data) := by
    intro s
    have hq2 : ∀ c ∈ (lowerStr q).data, ¬ c = '%' ∧ ¬ c = '_' := by
      intro c hc
      have hc2 : c ∈ List.map asciiLower q.data := hc
      rw [List.mem_map] at hc2
      obtain ⟨d, hd, rfl⟩ := hc2
      exact asciiLower_wild d (hq d hd).1 (hq d hd).2
    have h0 := likeContains_eq_substr (lowerStr q) (lowerStr s) hq2
    rw [h0]
    show isSubstrOf (lowerL (lowerL q.data)) (lowerL (lowerL s.data)) = _
    rw [lowerL_idem, lowerL_idem]
  have hstep : ∀ t ∈ db.tasks,
      decide (t.id ∈
        ((db.tasks.filter (fun t => likeContains q t.title)).map (fun t => t.id) ++
          (db.tasks.filter (fun t => db.entries.any (fun e =>
            decide (e.task_id = t.id) && decide (e.type = EntryType.NOTE) &&
              likeContains (lowerStr q) (lowerStr e.content)))).map (fun t => t.id) ++
          (db.tasks.filter (fun t => db.entries.any (fun e =>
            decide (e.task_id = t.id) &&
              (decide (e.type = EntryType.IMAGE) || decide (e.type = EntryType.FILE)) &&
              likeContains (lowerStr q) (lowerStr e.content)))).map (fun t => t.id))) =
      matchesSearch db.entries q t := by
    intro t ht
    rw [idUnion_filter db.tasks hN _ _ _ t ht]
    unfold matchesSearch
    rw [hTitle t]
    simp only [hLow]
  unfold searchTasks
  simp only []
  rw [List.filter_congr hstep]
  by_cases hE : ((db.tasks.filter (fun t => likeContains q t.title)).map (fun t => t.id) ++
      (db.tasks.filter (fun t => db.entries.any (fun e =>
        decide (e.task_id = t.id) && decide (e.type = EntryType.NOTE) &&
          likeContains (lowerStr q) (lowerStr e.content)))).map (fun t => t.id) ++
      (db.tasks.filter (fun t => db.entries.any (fun e =>
        decide (e.task_id = t.id) &&
          (decide (e.type = EntryType.IMAGE) || decide (e.type = EntryType.FILE)) &&
          likeContains (lowerStr q) (lowerStr e.content)))).map (fun t => t.id)).isEmpty
  · rw [if_pos hE]
    have hfil : db.tasks.filter (matchesSearch db.entries q) = [] := by
      refine List.filter_eq_nil_iff.mpr ?_
      intro t ht hmt
      have h1 : decide (t.id ∈ _) = true := (hstep t ht).symm ▸ hmt
      have h2 := of_decide_eq_true h1
      rw [List.isEmpty_iff] at hE
      rw [hE] at h2
      simp at h2
    rw [hfil]
    rfl
  · rw [if_neg hE]

/-- The spec's own search acceptance example: task A titled "Widget" with no
notes, task B titled "Gadget" with a note "order a widget". -/
def dbSearch : DB :=
  { tasks := [
      { id := "A", title := "Widget", status := .OPEN, priority := .NORMAL
        created_at := 0, last_touched_at := 0, archived_at := none
        delete_after_at := none, pinned_summary := "" },
      { id := "B", title := "Gadget", status := .OPEN, priority := .NORMAL
        created_at := 0, last_touched_at := 0, archived_at := none
        delete_after_at := none, pinned_summary := "" }]
    entries := [
      { id := "n1", task_id := "B", type := .NOTE, content := "order a widget"
        created_at := 1 }]
    gamification := none }

/-- Witness for C5 at the spec's acceptance example. -/
theorem C5_search_union_witness :
    searchTasks dbSearch 0 "widget" =
      listPipeline (dbSearch.tasks.filter (matchesSearch dbSearch.entries ("widget")))
        dbSearch.entries 0 :=
  C5_search_union dbSearch 0 "widget" (by decide) (by decide) (by decide)

/-- One task titled "Widget" with no timeline entries. -/
def dbWidget : DB :=
  { tasks := [
      { id := "A", title := "Widget", status := .OPEN, priority := .NORMAL
        created_at := 0, last_touched_at := 0, archived_at := none
        delete_after_at := none, pinned_summary := "" }]
    entries := [], gamification := none }

/-- One task titled "Gadget" whose FILE entry stores path "taskB/report.pdf". -/
def dbFilePath : DB :=
  { tasks := [
      { id := "B", title := "Gadget", status := .OPEN, priority := .NORMAL
        created_at := 0, last_touched_at := 0, archived_at := none
        delete_after_at := none, pinned_summary := "" }]
    entries := [
      { id := "f1", task_id := "B", type := .FILE, content := "taskB/report.pdf"
        created_at := 1 }]
    gamification := none }

/-- C5 counterexample: (a) the title match is not case-sensitive — searching
"widget" returns the task titled "Widget" although the claim's match set
(case-sensitive title per the literal `LIKE` reading) is empty; (b) the
attachment match scans the full stored path, not the basename — searching
"taskB" returns the task whose FILE path is "taskB/report.pdf" although its
basename "report.pdf" does not contain the query. -/
theorem C5_counterexample :
    ((searchTasks dbWidget 0 "widget").map (fun t => t.id) = ["A"] ∧
      dbWidget.tasks.all (fun t => !(specSearchMatch dbWidget.entries ("widget") t)) = true) ∧
    ((searchTasks dbFilePath 0 "taskB").map (fun t => t.id) = ["B"] ∧
      dbFilePath.tasks.all (fun t => !(specSearchMatch dbFilePath.entries ("taskB") t)) = true) :=
  ⟨⟨by decide, by decide⟩, ⟨by decide, by decide⟩⟩

/-- C9: the retention sweep deletes exactly the ARCHIVED tasks whose
`delete_after_at` has passed, together with all their timeline entries,
leaves the gamification record (and every other row) unchanged, and is
idempotent at the same instant. -/
theorem C9_cleanup_exact (db : DB) (now : Nat)
    (hN : (db.tasks.map (fun t : Task => t.id)).Nodup) :
    (cleanupExpiredTasks db now).tasks =
      db.tasks.filter (fun t => !(isExpired now t)) ∧
    (cleanupExpiredTasks db now).entries =
      db.entries.filter (fun e =>
        !(db.tasks.any (fun t => isExpired now t && decide (t.id = e.task_id)))) ∧
    (cleanupExpiredTasks db now).gamification = db.gamification ∧
    cleanupExpiredTasks (cleanupExpiredTasks db now) now = cleanupExpiredTasks db now := by
  have htasks : (cleanupExpiredTasks db now).tasks =
      db.tasks.filter (fun t => !(isExpired now t)) := by
    rw [cleanupExpiredTasks_char]
    refine List.filter_congr ?_
    intro x hx
    congr 1
    rw [List.any_filter]
    cases hex : isExpired now x with
    | true =>
      rw [List.any_eq_true]
      exact ⟨x, hx, by simp [hex]⟩
    | false =>
      rw [List.any_eq_false]
      intro u hu
      simp only [Bool.and_eq_true, decide_eq_true_eq, not_and]
      intro hexp hid
      have hux : u = x := List.inj_on_of_nodup_map hN hu hx hid
      rw [hux, hex] at hexp
      simp at hexp
  have hentries : (cleanupExpiredTasks db now).entries =
      db.entries.filter (fun e =>
        !(db.tasks.any (fun t => isExpired now t && decide (t.id = e.task_id)))) := by
    rw [cleanupExpiredTasks_char]
    refine List.filter_congr ?_
    intro e he
    congr 1
    rw [List.any_filter]
  have hgam : (cleanupExpiredTasks db now).gamification = db.gamification := by
    rw [cleanupExpiredTasks_char]
  refine ⟨htasks, hentries, hgam, ?_⟩
  have hexp2 : (cleanupExpiredTasks db now).tasks.filter (isExpired now) = [] := by
    rw [htasks, List.filter_filter]
    refine List.filter_eq_nil_iff.mpr ?_
    intro a _
    simp
  show ((cleanupExpiredTasks db now).tasks.filter (isExpired now)).foldl deleteTaskRow
      (cleanupExpiredTasks db now) = cleanupExpiredTasks db now
  rw [hexp2]
  rfl

/-- Store with one expired archived task `x`, one live task `y`, and one
timeline entry for each. -/
def dbSweep : DB :=
  { tasks := [
      { id := "x", title := "Old", status := .ARCHIVED, priority := .LOW
        created_at := 0, last_touched_at := 0, archived_at := some 100
        delete_after_at := some 500, pinned_summary := "" },
      { id := "y", title := "Live", status := .OPEN, priority := .NORMAL
        created_at := 0, last_touched_at := 0, archived_at := none
        delete_after_at := none, pinned_summary := "" }]
    entries := [
      { id := "e1", task_id := "x", type := .NOTE, content := "gone", created_at := 1 },
      { id := "e2", task_id := "y", type := .NOTE, content := "stays", created_at := 2 }]
    gamification := some { xp := 9, level := 1, streak := 2, last_active_date := 3 } }

/-- Witness for C9 at a concrete store swept at time 1000. -/
theorem C9_cleanup_exact_witness :
    (cleanupExpiredTasks dbSweep 1000).tasks =
      dbSweep.tasks.filter (fun t => !(isExpired 1000 t)) ∧
    (cleanupExpiredTasks dbSweep 1000).entries =
      dbSweep.entries.filter (fun e =>
        !(dbSweep.tasks.any (fun t => isExpired 1000 t && decide (t.id = e.task_id)))) ∧
    (cleanupExpiredTasks dbSweep 1000).gamification = dbSweep.gamification ∧
    cleanupExpiredTasks (cleanupExpiredTasks dbSweep 1000) 1000 =
      cleanupExpiredTasks dbSweep 1000 :=
  C9_cleanup_exact dbSweep 1000 (by decide)

end TaskVault
